import Mathlib

/-!
Verification of the NeoMentor segment-chained media assembly pipeline.

This file embeds the core orchestration logic of the repository in Lean:

* the per-segment duration-reconciliation strategy chosen by
  `merge_final_video` (src/backend/core/agents_vertex.py, lines 544-624),
* the synchronisation strategy of `MediaProcessor.sync_video_with_audio`
  (src/backend/utils/media_processor.py, lines 224-286),
* the duration probe `MediaProcessor.get_media_duration`
  (src/backend/utils/media_processor.py, lines 210-222),
* the generation loop `generate_video_and_audio_segments`
  (src/backend/core/agents_vertex.py, lines 257-482), and
* the validation / combine / assembly stages of `merge_final_video`
  (src/backend/core/agents_vertex.py, lines 484-696).

Durations are modelled as rationals; external subprocess calls are modelled
by explicit outcome parameters.
-/

namespace NeoMentor

/-- Python `int()` applied to a float truncates toward zero: floor for
nonnegative arguments, ceiling for negative ones. -/
def pyInt (q : ℚ) : ℤ := if 0 ≤ q then ⌊q⌋ else ⌈q⌉

/-- Loop count computed by `merge_final_video` in the stretch branch
(agents_vertex.py line 583): `loop_count = int(audio_duration / video_duration) + 1`. -/
def loop_count (video_duration audio_duration : ℚ) : ℤ :=
  pyInt (audio_duration / video_duration) + 1

/-- The ffmpeg command shape chosen by `merge_final_video` for one segment
once both durations have been probed (agents_vertex.py lines 578-611).
`loopExtend n t` is the command `ffmpeg -stream_loop n -i video -i audio
-c:v libx264 -c:a aac -map 0:v:0 -map 1:a:0 -t t -shortest out`;
`standardCopy` is `ffmpeg -i video -i audio -c:v copy -c:a aac -map 0:v:0
-map 1:a:0 -shortest out`. -/
inductive CombineCmd where
  | loopExtend (loopCount : ℤ) (trimTo : ℚ)
  | standardCopy
deriving DecidableEq, Repr

/-- Strategy selection of `merge_final_video` (agents_vertex.py lines
579-611): the loop-then-trim command exactly when
`audio_duration > video_duration and video_duration > 0`, the standard
stream-copy mux otherwise. -/
def chooseCombineCmd (video_duration audio_duration : ℚ) : CombineCmd :=
  if audio_duration > video_duration ∧ video_duration > 0 then
    .loopExtend (loop_count video_duration audio_duration) audio_duration
  else
    .standardCopy

/-- Duration of the clip produced by a combine command, for inputs of the
given durations. `-stream_loop n` plays the video stream `n + 1` times;
`-shortest` stops at the shortest mapped stream; `-t` caps the output. -/
def combineCmdDuration (c : CombineCmd) (video_duration audio_duration : ℚ) : ℚ :=
  match c with
  | .loopExtend n t => min (min (((n : ℚ) + 1) * video_duration) audio_duration) t
  | .standardCopy => min video_duration audio_duration

/-- Length of audio actually present in the clip produced by a combine
command: the audio stream is mapped whole and then cut only by `-shortest`
or `-t`, so it plays for the whole output duration (it is truncated iff the
output is shorter than the audio). -/
def combineCmdAudioPlayed (c : CombineCmd) (video_duration audio_duration : ℚ) : ℚ :=
  min audio_duration (combineCmdDuration c video_duration audio_duration)

/-- Strategy selected by `MediaProcessor.sync_video_with_audio`
(media_processor.py lines 224-286): bail out when a probe returned the 0.0
sentinel; standard `-shortest` combination when `audio_duration <=
video_duration`; otherwise extend the video with
`tpad=stop_mode=clone:stop_duration=(audio_duration - video_duration)`. -/
inductive SyncCmd where
  | probeFailed
  | standardCombine
  | clonePad (stop_duration : ℚ)
deriving DecidableEq, Repr

/-- Branch structure of `MediaProcessor.sync_video_with_audio`
(media_processor.py lines 231-272). -/
def sync_video_with_audio (video_duration audio_duration : ℚ) : SyncCmd :=
  if video_duration = 0 ∨ audio_duration = 0 then .probeFailed
  else if audio_duration ≤ video_duration then .standardCombine
  else .clonePad (audio_duration - video_duration)

/-- Duration of the output of a sync command: the standard combination uses
`-shortest`; the clone-pad command maps the padded video (length
`video + stop_duration`) and the full audio with no `-shortest`, so the
container lasts as long as the longer stream. -/
def syncCmdDuration (s : SyncCmd) (video_duration audio_duration : ℚ) : ℚ :=
  match s with
  | .probeFailed => 0
  | .standardCombine => min video_duration audio_duration
  | .clonePad d => max (video_duration + d) audio_duration

/-! Arithmetic facts about the loop count. -/

lemma loop_count_eq_floor (v a : ℚ) (hv : 0 < v) (ha : 0 < a) :
    loop_count v a = ⌊a / v⌋ + 1 := by
  unfold loop_count pyInt
  rw [if_pos (le_of_lt (div_pos ha hv))]

lemma loop_count_mul_ge (v a : ℚ) (hv : 0 < v) (hva : v < a) :
    a ≤ (loop_count v a : ℚ) * v := by
  have ha : 0 < a := lt_trans hv hva
  rw [loop_count_eq_floor v a hv ha]
  have h1 : a / v < (⌊a / v⌋ : ℚ) + 1 := Int.lt_floor_add_one _
  have h2 : a / v * v = a := div_mul_cancel₀ a (ne_of_gt hv)
  have h3 := mul_lt_mul_of_pos_right h1 hv
  rw [h2] at h3
  push_cast
  linarith

lemma loop_count_succ_mul_gt (v a : ℚ) (hv : 0 < v) (hva : v < a) :
    a < ((loop_count v a : ℚ) + 1) * v := by
  have h := loop_count_mul_ge v a hv hva
  nlinarith

/-- C2: for measured durations with `audio_duration > video_duration > 0`,
`merge_final_video` selects the loop-then-trim command trimmed to
`audio_duration`, the combined clip's duration equals the audio duration,
the audio track is played in full (never truncated), and
`sync_video_with_audio` likewise extends the video so its output duration
equals the audio duration. -/
theorem c2_stretch_output_equals_audio_duration
    (video_duration audio_duration : ℚ)
    (hv : 0 < video_duration) (hva : video_duration < audio_duration) :
    chooseCombineCmd video_duration audio_duration =
      .loopExtend (loop_count video_duration audio_duration) audio_duration ∧
    combineCmdDuration (chooseCombineCmd video_duration audio_duration)
      video_duration audio_duration = audio_duration ∧
    combineCmdAudioPlayed (chooseCombineCmd video_duration audio_duration)
      video_duration audio_duration = audio_duration ∧
    sync_video_with_audio video_duration audio_duration =
      .clonePad (audio_duration - video_duration) ∧
    syncCmdDuration (sync_video_with_audio video_duration audio_duration)
      video_duration audio_duration = audio_duration := by
  have hcmd : chooseCombineCmd video_duration audio_duration =
      .loopExtend (loop_count video_duration audio_duration) audio_duration := by
    unfold chooseCombineCmd
    rw [if_pos ⟨hva, hv⟩]
  have hlong := loop_count_succ_mul_gt video_duration audio_duration hv hva
  have hdur : combineCmdDuration (chooseCombineCmd video_duration audio_duration)
      video_duration audio_duration = audio_duration := by
    rw [hcmd]
    simp only [combineCmdDuration]
    rw [min_eq_right (le_of_lt hlong), min_self]
  have hsync : sync_video_with_audio video_duration audio_duration =
      .clonePad (audio_duration - video_duration) := by
    unfold sync_video_with_audio
    rw [if_neg, if_neg]
    · exact not_le.mpr hva
    · push_neg
      exact ⟨ne_of_gt hv, ne_of_gt (lt_trans hv hva)⟩
  refine ⟨hcmd, hdur, ?_, hsync, ?_⟩
  · unfold combineCmdAudioPlayed
    rw [hdur, min_self]
  · rw [hsync]
    simp only [syncCmdDuration]
    rw [add_sub_cancel, max_self]

theorem c2_witness :
    (0 : ℚ) < 2 ∧ (2 : ℚ) < 5 ∧
    combineCmdDuration (chooseCombineCmd 2 5) 2 5 = 5 ∧
    syncCmdDuration (sync_video_with_audio 2 5) 2 5 = 5 :=
  ⟨by norm_num, by norm_num,
   (c2_stretch_output_equals_audio_duration 2 5 (by norm_num) (by norm_num)).2.1,
   (c2_stretch_output_equals_audio_duration 2 5 (by norm_num) (by norm_num)).2.2.2.2⟩

/-- C3: in the stretch case the loop count is
`floor(audio_duration / video_duration) + 1`, and that count times the
video duration is at least the audio duration, so the looped stream covers
the audio before trimming. -/
theorem c3_loop_count_covers_audio (video_duration audio_duration : ℚ)
    (hv : 0 < video_duration) (hva : video_duration < audio_duration) :
    chooseCombineCmd video_duration audio_duration =
      .loopExtend (loop_count video_duration audio_duration) audio_duration ∧
    loop_count video_duration audio_duration =
      ⌊audio_duration / video_duration⌋ + 1 ∧
    audio_duration ≤ (loop_count video_duration audio_duration : ℚ) * video_duration := by
  refine ⟨?_, ?_, loop_count_mul_ge video_duration audio_duration hv hva⟩
  · unfold chooseCombineCmd
    rw [if_pos ⟨hva, hv⟩]
  · exact loop_count_eq_floor video_duration audio_duration hv (lt_trans hv hva)

theorem c3_witness :
    (0 : ℚ) < 2 ∧ (2 : ℚ) < 5 ∧
    loop_count 2 5 = 3 ∧ (5 : ℚ) ≤ (loop_count 2 5 : ℚ) * 2 := by
  have h := c3_loop_count_covers_audio 2 5 (by norm_num) (by norm_num)
  have hfloor : loop_count 2 5 = 3 := by
    rw [h.2.1]
    norm_num [Int.floor_eq_iff]
  exact ⟨by norm_num, by norm_num, hfloor, h.2.2⟩

/-- C4: for measured durations with `audio_duration <= video_duration`,
`merge_final_video` selects the standard stream-copy mux (no looping), the
combined clip's duration is the shorter (audio) duration, and
`sync_video_with_audio` likewise uses the standard combination with output
duration equal to the audio duration. -/
theorem c4_standard_mux_shortest_wins (video_duration audio_duration : ℚ)
    (hav : audio_duration ≤ video_duration) :
    chooseCombineCmd video_duration audio_duration = .standardCopy ∧
    combineCmdDuration .standardCopy video_duration audio_duration = audio_duration ∧
    (video_duration ≠ 0 → audio_duration ≠ 0 →
      sync_video_with_audio video_duration audio_duration = .standardCombine ∧
      syncCmdDuration .standardCombine video_duration audio_duration = audio_duration) := by
  have hmin : min video_duration audio_duration = audio_duration := min_eq_right hav
  refine ⟨?_, hmin, fun hv ha => ⟨?_, hmin⟩⟩
  · unfold chooseCombineCmd
    rw [if_neg]
    intro hcon
    exact absurd hcon.1 (not_lt.mpr hav)
  · unfold sync_video_with_audio
    rw [if_neg (by push_neg; exact ⟨hv, ha⟩), if_pos hav]

theorem c4_witness :
    (3 : ℚ) ≤ 5 ∧
    chooseCombineCmd 5 3 = .standardCopy ∧
    combineCmdDuration .standardCopy 5 3 = 3 :=
  ⟨by norm_num, (c4_standard_mux_shortest_wins 5 3 (by norm_num)).1,
   (c4_standard_mux_shortest_wins 5 3 (by norm_num)).2.1⟩

/-! Model of `MediaProcessor.get_media_duration`
(media_processor.py lines 210-222). The try block runs
`subprocess.run(['ffprobe', ...], check=True)`, parses the stdout with
`json.loads`, indexes `data['format']['duration']` and applies `float`;
the except clause catches exactly `(subprocess.CalledProcessError,
json.JSONDecodeError, KeyError, ValueError)` and returns `0.0`. -/

/-- Stdout of a completed ffprobe process, as seen by the parsing steps of
`get_media_duration`. -/
inductive ProbeStdout where
  | notJson
  | missingKey
  | durationNotNumeric
  | durationValue (q : ℚ)
deriving DecidableEq, Repr

/-- Outcome of the `subprocess.run` call on media_processor.py line 217:
`binaryMissing` is the case where the `ffprobe` executable is absent (the
call raises `FileNotFoundError`); `nonzeroExit` is a nonzero return code
(with `check=True` the call raises `CalledProcessError`). -/
inductive ProbeRun where
  | binaryMissing
  | nonzeroExit
  | completed (out : ProbeStdout)
deriving DecidableEq, Repr

/-- Python exceptions the try block of `get_media_duration` can raise. -/
inductive PyExc where
  | fileNotFoundError
  | calledProcessError
  | jsonDecodeError
  | keyError
  | valueError
deriving DecidableEq, Repr

/-- Membership in the exception tuple of the except clause on
media_processor.py line 220. `FileNotFoundError` is not listed there. -/
def caughtByDurationHandler : PyExc → Bool
  | .calledProcessError => true
  | .jsonDecodeError => true
  | .keyError => true
  | .valueError => true
  | .fileNotFoundError => false

/-- Semantics of the try-block body of `get_media_duration`
(media_processor.py lines 213-219). -/
def durationTryBody : ProbeRun → Except PyExc ℚ
  | .binaryMissing => .error .fileNotFoundError
  | .nonzeroExit => .error .calledProcessError
  | .completed .notJson => .error .jsonDecodeError
  | .completed .missingKey => .error .keyError
  | .completed .durationNotNumeric => .error .valueError
  | .completed (.durationValue q) => .ok q

/-- `MediaProcessor.get_media_duration`: the value returned to the caller,
or the exception that propagates past the except clause. -/
def get_media_duration (r : ProbeRun) : Except PyExc ℚ :=
  match durationTryBody r with
  | .ok q => .ok q
  | .error e => if caughtByDurationHandler e then .ok 0 else .error e

/-- A probe run on which `get_media_duration` fails to measure a valid
duration. -/
def probeMeasurementFails (r : ProbeRun) : Bool :=
  match durationTryBody r with
  | .ok _ => false
  | .error _ => true

/-- C9 counterexample: when the ffprobe executable is unavailable, the
duration measurement fails but `get_media_duration` does not return the
0.0 sentinel — the `FileNotFoundError` raised by `subprocess.run` is not
in the caught tuple and propagates to the caller. -/
theorem c9_counterexample :
    probeMeasurementFails ProbeRun.binaryMissing = true ∧
    get_media_duration ProbeRun.binaryMissing ≠ Except.ok 0 ∧
    get_media_duration ProbeRun.binaryMissing = Except.error PyExc.fileNotFoundError :=
  ⟨rfl, fun h => Except.noConfusion h, rfl⟩

/-- C9 amended: whenever the ffprobe executable itself is present, every
failure to measure a duration (nonzero exit, unparsable stdout, missing
key, non-numeric value) makes `get_media_duration` return the 0.0 sentinel
and never lets an exception reach the caller; the sole exception to this
is an absent ffprobe executable, which raises `FileNotFoundError`. -/
theorem c9_sentinel_on_failure (r : ProbeRun) (hr : r ≠ ProbeRun.binaryMissing) :
    (probeMeasurementFails r = true → get_media_duration r = Except.ok 0) ∧
    (∀ e, get_media_duration r ≠ Except.error e) := by
  cases r with
  | binaryMissing => exact absurd rfl hr
  | nonzeroExit => exact ⟨fun _ => rfl, fun e h => Except.noConfusion h⟩
  | completed out =>
    cases out with
    | notJson => exact ⟨fun _ => rfl, fun e h => Except.noConfusion h⟩
    | missingKey => exact ⟨fun _ => rfl, fun e h => Except.noConfusion h⟩
    | durationNotNumeric => exact ⟨fun _ => rfl, fun e h => Except.noConfusion h⟩
    | durationValue q =>
      exact ⟨fun h => Bool.noConfusion h, fun e h => Except.noConfusion h⟩

theorem c9_sentinel_on_failure_witness :
    ProbeRun.nonzeroExit ≠ ProbeRun.binaryMissing ∧
    get_media_duration ProbeRun.nonzeroExit = Except.ok 0 :=
  ⟨fun h => ProbeRun.noConfusion h,
   (c9_sentinel_on_failure ProbeRun.nonzeroExit (fun h => ProbeRun.noConfusion h)).1 rfl⟩

/-! Model of `generate_video_and_audio_segments`
(agents_vertex.py lines 257-482). The loop over segments (lines 350-463)
generates audio first (lines 354-381); any audio failure or exception
returns an error payload immediately. Video generation follows (lines
383-463); any video failure or exception also returns an error payload
immediately. After a successful video, and only for non-final segments,
`extract_last_frame` is attempted (lines 443-448) and
`current_reference_image` is replaced only when it succeeds. External
collaborator calls are modelled by per-segment boolean outcomes. -/

/-- Outcomes of the three external calls made for one segment: whether
`clone_voice` returned an existing path (lines 357-364), whether the video
generator returned an existing path (line 439), and whether
`extract_last_frame` returned True (line 446). -/
structure SegmentEnv where
  audioOk : Bool
  videoOk : Bool
  extractOk : Bool
deriving DecidableEq, Repr, Inhabited

/-- Reference image passed to a video-generation call: either the
user-uploaded image or the frame extracted from segment `i`'s video. -/
inductive Ref where
  | initialImage
  | frame (i : Nat)
deriving DecidableEq, Repr

/-- Observable events of the generation loop, in program order. -/
inductive GenEvent where
  | audioGen (i : Nat) (ok : Bool)
  | videoGen (i : Nat) (ref : Ref) (ok : Bool)
  | frameExtract (i : Nat) (ok : Bool)
deriving DecidableEq, Repr

/-- Segment index an event belongs to. -/
def GenEvent.segIdx : GenEvent → Nat
  | .audioGen i _ => i
  | .videoGen i _ _ => i
  | .frameExtract i _ => i

/-- Filename of segment `i`'s generated video (line 351, no session id). -/
def videoSegmentPath (i : Nat) : String := "video_segment_" ++ toString (i + 1) ++ ".mp4"

/-- Filename of segment `i`'s generated audio (line 352, no session id). -/
def audioSegmentPath (i : Nat) : String := "audio_segment_" ++ toString (i + 1) ++ ".wav"

/-- Reference image used for the segment at index `i` (lines 405-437):
segment 0 always uses the uploaded image; later segments use the carried
`current_reference_image`, which always exists on disk in this model (the
uploaded image is validated up front and frame paths are recorded only
when `extract_last_frame` confirmed the output file exists), so the
fallback branch on line 431 is unreachable. -/
def refUsedAt (i : Nat) (ref : Ref) : Ref := if i = 0 then Ref.initialImage else ref

/-- Value of `current_reference_image` after the segment at index `i`:
extraction is attempted only when the segment is not the last (line 444)
and the reference is replaced only on success (lines 446-447). -/
def nextRefAfter (i : Nat) (isLast : Bool) (extractOk : Bool) (ref : Ref) : Ref :=
  if isLast = false ∧ extractOk = true then Ref.frame i else ref

/-- Event trace of the generation loop, starting at segment index `i` with
carried reference `ref`. -/
def genEventsAux : List SegmentEnv → Nat → Ref → List GenEvent
  | [], _, _ => []
  | e :: rest, i, ref =>
    if e.audioOk then
      if e.videoOk then
        GenEvent.audioGen i true :: GenEvent.videoGen i (refUsedAt i ref) true ::
          ((if rest.isEmpty then [] else [GenEvent.frameExtract i e.extractOk]) ++
            genEventsAux rest (i + 1) (nextRefAfter i rest.isEmpty e.extractOk ref))
      else [GenEvent.audioGen i true, GenEvent.videoGen i (refUsedAt i ref) false]
    else [GenEvent.audioGen i false]

/-- Result of the generation loop (same branch structure as
`genEventsAux`): the error payload of the first fatal failure, or the
accumulated `video_results` and `audio_results` lists (lines 465-474). -/
def genResultAux : List SegmentEnv → Nat → Ref → Except String (List String × List String)
  | [], _, _ => .ok ([], [])
  | e :: rest, i, ref =>
    if e.audioOk then
      if e.videoOk then
        match genResultAux rest (i + 1) (nextRefAfter i rest.isEmpty e.extractOk ref) with
        | .error m => .error m
        | .ok (vs, as) => .ok (videoSegmentPath i :: vs, audioSegmentPath i :: as)
      else .error ("❌ Video generation failed for segment " ++ toString (i + 1))
    else .error ("❌ Audio generation failed for segment " ++ toString (i + 1))

/-- The JSON payload handed from the media-generation agent to
`merge_final_video`: an error message, or the video and audio segment path
lists. -/
inductive MediaData where
  | error (msg : String)
  | success (video_segments audio_segments : List String)
deriving DecidableEq, Repr

/-- `generate_video_and_audio_segments` for a run whose per-segment
collaborator outcomes are `segs`: the loop starts at index 0 with
`current_reference_image = uploaded_image_path`. -/
def generate_video_and_audio_segments (segs : List SegmentEnv) : MediaData :=
  match genResultAux segs 0 Ref.initialImage with
  | .error m => MediaData.error m
  | .ok (vs, as) => MediaData.success vs as

/-- Event trace of a full run of `generate_video_and_audio_segments`. -/
def genEvents (segs : List SegmentEnv) : List GenEvent :=
  genEventsAux segs 0 Ref.initialImage

/-- Reference image the spec-corrected chain uses for segment `i`: the
frame of the most recent earlier segment whose extraction succeeded,
falling back to the uploaded image when there is none. -/
def refAt (ext : Nat → Bool) : Nat → Ref
  | 0 => Ref.initialImage
  | i + 1 => if ext i then Ref.frame i else refAt ext i

lemma genEventsAux_segIdx_ge :
    ∀ (segs : List SegmentEnv) (i0 : Nat) (ref : Ref) (ev : GenEvent),
      ev ∈ genEventsAux segs i0 ref → i0 ≤ ev.segIdx := by
  intro segs
  induction segs with
  | nil =>
    intro i0 ref ev hev
    simp [genEventsAux] at hev
  | cons e rest ih =>
    intro i0 ref ev hev
    cases ha : e.audioOk with
    | false =>
      simp [genEventsAux, ha] at hev
      subst hev
      exact Nat.le_refl _
    | true =>
      cases hv : e.videoOk with
      | false =>
        simp [genEventsAux, ha, hv] at hev
        rcases hev with h | h
        · subst h; exact Nat.le_refl _
        · subst h; exact Nat.le_refl _
      | true =>
        simp only [genEventsAux, ha, hv, if_true, List.mem_cons, List.mem_append] at hev
        rcases hev with h | h | h | h
        · subst h; exact Nat.le_refl _
        · subst h; exact Nat.le_refl _
        · cases hr : rest.isEmpty with
          | true => rw [hr] at h; simp at h
          | false =>
            rw [hr] at h
            simp at h
            subst h; exact Nat.le_refl _
        · exact Nat.le_trans (Nat.le_succ i0) (ih (i0 + 1) _ ev h)

lemma genEventsAux_audio_before_video :
    ∀ (segs : List SegmentEnv) (i0 : Nat) (ref : Ref) (i : Nat) (r : Ref) (ok : Bool),
      GenEvent.videoGen i r ok ∈ genEventsAux segs i0 ref →
      [GenEvent.audioGen i true, GenEvent.videoGen i r ok].Sublist (genEventsAux segs i0 ref) := by
  intro segs
  induction segs with
  | nil =>
    intro i0 ref i r ok hev
    simp [genEventsAux] at hev
  | cons e rest ih =>
    intro i0 ref i r ok hev
    cases ha : e.audioOk with
    | false => simp [genEventsAux, ha] at hev
    | true =>
      cases hv : e.videoOk with
      | false =>
        simp only [genEventsAux, ha, hv, if_true, Bool.false_eq_true, if_false] at hev ⊢
        cases hev with
        | tail _ h1 =>
          cases h1 with
          | head => exact List.Sublist.refl _
          | tail _ h2 => exact absurd h2 (List.not_mem_nil _)
      | true =>
        simp only [genEventsAux, ha, hv, if_true] at hev ⊢
        cases hev with
        | tail _ h1 =>
          cases h1 with
          | head => exact ((List.nil_sublist _).cons₂ _).cons₂ _
          | tail _ h2 =>
            rcases List.mem_append.mp h2 with h3 | h3
            · cases hr : rest.isEmpty with
              | true => rw [hr] at h3; simp at h3
              | false => rw [hr] at h3; simp at h3
            · exact (((ih (i0 + 1) _ i r ok h3).trans
                (List.sublist_append_right _ _)).cons _).cons _

lemma genEventsAux_no_video_on_audio_fail :
    ∀ (segs : List SegmentEnv) (i0 : Nat) (ref : Ref) (i : Nat),
      GenEvent.audioGen i false ∈ genEventsAux segs i0 ref →
      ∀ (r : Ref) (ok : Bool), GenEvent.videoGen i r ok ∉ genEventsAux segs i0 ref := by
  intro segs
  induction segs with
  | nil =>
    intro i0 ref i hev
    simp [genEventsAux] at hev
  | cons e rest ih =>
    intro i0 ref i hev r ok hvid
    cases ha : e.audioOk with
    | false =>
      simp [genEventsAux, ha] at hev hvid
    | true =>
      cases hv : e.videoOk with
      | false =>
        simp [genEventsAux, ha, hv] at hev
      | true =>
        simp only [genEventsAux, ha, hv, if_true, List.mem_cons, List.mem_append] at hev hvid
        rcases hev with h | h | h | h
        · exact absurd h (by simp)
        · exact absurd h (by simp)
        · cases hr : rest.isEmpty with
          | true => rw [hr] at h; simp at h
          | false => rw [hr] at h; simp at h
        · have hge : i0 + 1 ≤ i := genEventsAux_segIdx_ge rest (i0 + 1) _ _ h
          rcases hvid with h2 | h2 | h2 | h2
          · exact absurd h2 (by simp)
          · have : i = i0 := by
              injection h2
            omega
          · cases hr : rest.isEmpty with
            | true => rw [hr] at h2; simp at h2
            | false => rw [hr] at h2; simp at h2
          · exact ih (i0 + 1) _ i h r ok h2

/-- C7: in every run, video generation for a segment happens only after
that segment's audio generation succeeded (the audio event precedes the
video event in the trace), and a segment whose audio generation failed
never has a video-generation attempt. -/
theorem c7_audio_precedes_video (segs : List SegmentEnv) :
    (∀ (i : Nat) (r : Ref) (ok : Bool), GenEvent.videoGen i r ok ∈ genEvents segs →
      [GenEvent.audioGen i true, GenEvent.videoGen i r ok].Sublist (genEvents segs)) ∧
    (∀ (i : Nat), GenEvent.audioGen i false ∈ genEvents segs →
      ∀ (r : Ref) (ok : Bool), GenEvent.videoGen i r ok ∉ genEvents segs) :=
  ⟨fun i r ok h => genEventsAux_audio_before_video segs 0 Ref.initialImage i r ok h,
   fun i h r ok => genEventsAux_no_video_on_audio_fail segs 0 Ref.initialImage i h r ok⟩

theorem c7_witness :
    GenEvent.videoGen 0 Ref.initialImage true ∈
      genEvents [⟨true, true, true⟩, ⟨false, true, true⟩] ∧
    [GenEvent.audioGen 0 true, GenEvent.videoGen 0 Ref.initialImage true].Sublist
      (genEvents [⟨true, true, true⟩, ⟨false, true, true⟩]) ∧
    GenEvent.audioGen 1 false ∈ genEvents [⟨true, true, true⟩, ⟨false, true, true⟩] ∧
    GenEvent.videoGen 1 (Ref.frame 0) true ∉
      genEvents [⟨true, true, true⟩, ⟨false, true, true⟩] :=
  ⟨by decide,
   (c7_audio_precedes_video [⟨true, true, true⟩, ⟨false, true, true⟩]).1 0 Ref.initialImage true
     (by decide),
   by decide,
   (c7_audio_precedes_video [⟨true, true, true⟩, ⟨false, true, true⟩]).2 1 (by decide)
     (Ref.frame 0) true⟩

lemma genEventsAux_videoGen_ref :
    ∀ (segs : List SegmentEnv) (i0 : Nat) (ref : Ref) (ext : Nat → Bool),
      (∀ j, j < segs.length → (segs.getD j default).extractOk = ext (i0 + j)) →
      ref = refAt ext i0 →
      ∀ (i : Nat) (r : Ref) (ok : Bool), GenEvent.videoGen i r ok ∈ genEventsAux segs i0 ref →
        r = refAt ext i := by
  intro segs
  induction segs with
  | nil =>
    intro i0 ref ext hext href i r ok hev
    simp [genEventsAux] at hev
  | cons e rest ih =>
    intro i0 ref ext hext href i r ok hev
    have hext0 : e.extractOk = ext i0 := by
      have h := hext 0 (Nat.succ_pos _)
      simpa using h
    have hru : refUsedAt i0 ref = refAt ext i0 := by
      unfold refUsedAt
      by_cases h0 : i0 = 0
      · subst h0
        simp [refAt]
      · rw [if_neg h0, href]
    cases ha : e.audioOk with
    | false => simp [genEventsAux, ha] at hev
    | true =>
      cases hv : e.videoOk with
      | false =>
        simp only [genEventsAux, ha, hv, if_true, Bool.false_eq_true, if_false] at hev
        cases hev with
        | tail _ h1 =>
          cases h1 with
          | head => exact hru
          | tail _ h2 => exact absurd h2 (List.not_mem_nil _)
      | true =>
        simp only [genEventsAux, ha, hv, if_true] at hev
        cases hev with
        | tail _ h1 =>
          cases h1 with
          | head => exact hru
          | tail _ h2 =>
            rcases List.mem_append.mp h2 with h3 | h3
            · cases hr : rest.isEmpty with
              | true => rw [hr] at h3; simp at h3
              | false => rw [hr] at h3; simp at h3
            · cases hr : rest.isEmpty with
              | true =>
                rw [List.isEmpty_iff] at hr
                subst hr
                simp [genEventsAux] at h3
              | false =>
                rw [hr] at h3
                refine ih (i0 + 1) (nextRefAfter i0 false e.extractOk ref) ext ?_ ?_ i r ok h3
                · intro j hj
                  have h := hext (j + 1) (by simpa using Nat.succ_lt_succ hj)
                  rw [List.getD_cons_succ] at h
                  rw [show i0 + 1 + j = i0 + (j + 1) from by omega]
                  exact h
                · cases hex : e.extractOk with
                  | true =>
                    simp only [nextRefAfter, hex, and_self, if_true, refAt, ← hext0]
                  | false =>
                    simp only [nextRefAfter, hex, refAt, ← hext0]
                    simp [href]

lemma genResultAux_ok_of_all_ok :
    ∀ (segs : List SegmentEnv) (i0 : Nat) (ref : Ref),
      (∀ e ∈ segs, e.audioOk = true ∧ e.videoOk = true) →
      ∃ vs as, genResultAux segs i0 ref = Except.ok (vs, as) := by
  intro segs
  induction segs with
  | nil =>
    intro i0 ref h
    exact ⟨[], [], rfl⟩
  | cons e rest ih =>
    intro i0 ref h
    have he := h e (List.mem_cons_self e rest)
    obtain ⟨vs, as, hrec⟩ := ih (i0 + 1) (nextRefAfter i0 rest.isEmpty e.extractOk ref)
      (fun x hx => h x (List.mem_cons_of_mem e hx))
    exact ⟨videoSegmentPath i0 :: vs, audioSegmentPath i0 :: as,
      by simp [genResultAux, he.1, he.2, hrec]⟩

/-- C6 counterexample: in a three-segment run where frame extraction
succeeds after segment 0 and fails after segment 1, segment 2's
video-generation call uses the frame extracted from segment 0 — the
previously carried reference — not the user-supplied initial image the
claim prescribes for an extraction failure. -/
theorem c6_counterexample :
    GenEvent.frameExtract 1 false ∈
      genEvents [⟨true, true, true⟩, ⟨true, true, false⟩, ⟨true, true, false⟩] ∧
    GenEvent.videoGen 2 (Ref.frame 0) true ∈
      genEvents [⟨true, true, true⟩, ⟨true, true, false⟩, ⟨true, true, false⟩] ∧
    GenEvent.videoGen 2 Ref.initialImage true ∉
      genEvents [⟨true, true, true⟩, ⟨true, true, false⟩, ⟨true, true, false⟩] ∧
    Ref.frame 0 ≠ Ref.initialImage := by
  refine ⟨by decide, by decide, by decide, by decide⟩

/-- C6 amended: segment 0 always uses the user-supplied initial image; for
every segment i > 0 the reference is the frame of the most recent earlier
segment whose extraction succeeded — on extraction failure the chain
re-uses the previous reference image (the initial image only when no
earlier extraction succeeded) — and a failed extraction never fails a
segment or aborts the run. -/
theorem c6_reference_continuity (segs : List SegmentEnv) :
    (∀ (r : Ref) (ok : Bool), GenEvent.videoGen 0 r ok ∈ genEvents segs →
      r = Ref.initialImage) ∧
    (∀ (i : Nat) (r : Ref) (ok : Bool), GenEvent.videoGen i r ok ∈ genEvents segs →
      r = refAt (fun j => (segs.getD j default).extractOk) i) ∧
    ((∀ e ∈ segs, e.audioOk = true ∧ e.videoOk = true) →
      ∃ vs as, generate_video_and_audio_segments segs = MediaData.success vs as) := by
  have hmain := genEventsAux_videoGen_ref segs 0 Ref.initialImage
    (fun j => (segs.getD j default).extractOk) (fun j hj => by simp) rfl
  refine ⟨fun r ok h => hmain 0 r ok h, fun i r ok h => hmain i r ok h, fun hall => ?_⟩
  obtain ⟨vs, as, hres⟩ := genResultAux_ok_of_all_ok segs 0 Ref.initialImage hall
  exact ⟨vs, as, by simp [generate_video_and_audio_segments, hres]⟩

theorem c6_witness :
    GenEvent.videoGen 2 (Ref.frame 0) true ∈
      genEvents [⟨true, true, true⟩, ⟨true, true, false⟩, ⟨true, true, true⟩] ∧
    Ref.frame 0 =
      refAt (fun j => (([⟨true, true, true⟩, ⟨true, true, false⟩,
        ⟨true, true, true⟩] : List SegmentEnv).getD j default).extractOk) 2 :=
  ⟨by decide,
   (c6_reference_continuity [⟨true, true, true⟩, ⟨true, true, false⟩,
     ⟨true, true, true⟩]).2.1 2 (Ref.frame 0) true (by decide)⟩

/-! Model of `merge_final_video` (agents_vertex.py lines 484-696).
An incoming error payload is returned unchanged (lines 492-493). The
reported segment lists are filtered (lines 516-517), consistency-checked
(lines 522-532), zipped positionally (line 541), combined one by one with
per-pair subprocess outcomes (lines 541-641), and assembled (lines
643-679). The per-pair ffmpeg command construction is modelled separately
by `chooseCombineCmd`; here only the subprocess outcome matters for
control flow. -/

/-- How the final artifact was produced (lines 652-679): a plain
`shutil.copy` of the single combined clip, or the ffmpeg concat demuxer
over the listed clips in order. -/
inductive AssembleMode where
  | copySingle (src : String)
  | concatList (order : List String)
deriving DecidableEq, Repr

/-- Result payload returned by `merge_final_video`. -/
inductive MergeResult where
  | error (msg : String)
  | success (final_video_path : String) (segments_merged : Nat) (mode : AssembleMode)
deriving DecidableEq, Repr

/-- Path of the final merged video (line 650). -/
def final_output : String := "generated_media/final_neomentor_video.mp4"

/-- Path of the combined clip for pair index `i` (line 542). -/
def combinedSegmentPath (i : Nat) : String :=
  "generated_media/combined_segments/combined_segment_" ++ toString (i + 1) ++ ".mp4"

/-- Outcome of the per-pair ffmpeg combine subprocess (lines 626-641):
nonzero exit or missing output file, `TimeoutExpired`, or another
exception. Every non-success outcome leaves the pair out of
`combined_segments_paths` and lets the loop continue. -/
inductive CombineOutcome where
  | success
  | ffmpegFailed
  | timeoutExpired
  | otherExc
deriving DecidableEq, Repr

/-- Python's `s.startswith("Error:")`, expressed on the character
sequence of the string. -/
def startsWithErrorMarker (s : String) : Bool :=
  "Error:".data.isPrefixOf s.data

/-- Filter applied to each reported segment list (lines 516-517): keep
entries that are not error markers and exist on disk. -/
def validSegments (existsOnDisk : String → Bool) (segments : List String) : List String :=
  segments.filter (fun s => !startsWithErrorMarker s && existsOnDisk s)

/-- Pair indices appended to `combined_segments_paths` by the combine loop
(lines 541-641), starting from pair index `i`: exactly the pairs whose
ffmpeg subprocess succeeded, in order. -/
def combineIndices {α : Type} (outcome : Nat → CombineOutcome) : Nat → List α → List Nat
  | _, [] => []
  | i, _ :: rest =>
    if outcome i = CombineOutcome.success then i :: combineIndices outcome (i + 1) rest
    else combineIndices outcome (i + 1) rest

/-- Final assembly (lines 643-679): an error when nothing combined; a pure
file copy for exactly one combined clip (no concatenation); the concat
demuxer over the combined clips in list order for several, failing when
the concat subprocess fails. -/
def assembleFinal (concatOk : Bool) (combined : List String) : MergeResult :=
  match combined with
  | [] => .error "No segments were successfully combined."
  | [single] => .success final_output 1 (.copySingle single)
  | _ =>
    if concatOk then .success final_output combined.length (.concatList combined)
    else .error "FFmpeg concatenation failed"

/-- `merge_final_video`: returns the list of combined segment clips
written to disk together with the result payload. -/
def merge_final_video (existsOnDisk : String → Bool) (outcome : Nat → CombineOutcome)
    (concatOk : Bool) : MediaData → List String × MergeResult
  | .error msg => ([], .error msg)
  | .success video_segments audio_segments =>
    let valid_video_segments := validSegments existsOnDisk video_segments
    let valid_audio_segments := validSegments existsOnDisk audio_segments
    if valid_video_segments.isEmpty && valid_audio_segments.isEmpty then
      ([], .error "No valid media segments were generated.")
    else if valid_video_segments.length ≠ valid_audio_segments.length then
      ([], .error ("Mismatch between valid video (" ++ toString valid_video_segments.length
        ++ ") and audio (" ++ toString valid_audio_segments.length ++ ") segments."))
    else
      let pairs := valid_video_segments.zip valid_audio_segments
      let combined := (combineIndices outcome 0 pairs).map combinedSegmentPath
      (combined, assembleFinal concatOk combined)

lemma combineIndices_mem_iff {α : Type} (outcome : Nat → CombineOutcome) :
    ∀ (pairs : List α) (i0 j : Nat),
      j ∈ combineIndices outcome i0 pairs ↔
        (i0 ≤ j ∧ j < i0 + pairs.length ∧ outcome j = CombineOutcome.success) := by
  intro pairs
  induction pairs with
  | nil =>
    intro i0 j
    simp only [combineIndices, List.not_mem_nil, List.length_nil, false_iff]
    rintro ⟨h1, h2, _⟩
    omega
  | cons p rest ih =>
    intro i0 j
    simp only [combineIndices, List.length_cons]
    by_cases ho : outcome i0 = CombineOutcome.success
    · rw [if_pos ho]
      simp only [List.mem_cons, ih (i0 + 1) j]
      constructor
      · rintro (rfl | ⟨h1, h2, h3⟩)
        · exact ⟨Nat.le_refl _, by omega, ho⟩
        · exact ⟨by omega, by omega, h3⟩
      · rintro ⟨h1, h2, h3⟩
        by_cases hj : j = i0
        · exact Or.inl hj
        · exact Or.inr ⟨by omega, by omega, h3⟩
    · rw [if_neg ho]
      rw [ih (i0 + 1) j]
      constructor
      · rintro ⟨h1, h2, h3⟩
        exact ⟨by omega, by omega, h3⟩
      · rintro ⟨h1, h2, h3⟩
        have hj : j ≠ i0 := fun h => ho (h ▸ h3)
        exact ⟨by omega, by omega, h3⟩

lemma combineIndices_sorted {α : Type} (outcome : Nat → CombineOutcome) :
    ∀ (pairs : List α) (i0 : Nat), List.Pairwise (· < ·) (combineIndices outcome i0 pairs) := by
  intro pairs
  induction pairs with
  | nil => intro i0; simp [combineIndices]
  | cons p rest ih =>
    intro i0
    simp only [combineIndices]
    by_cases ho : outcome i0 = CombineOutcome.success
    · rw [if_pos ho]
      refine List.Pairwise.cons ?_ (ih (i0 + 1))
      intro j hj
      have h := (combineIndices_mem_iff outcome rest (i0 + 1) j).mp hj
      omega
    · rw [if_neg ho]
      exact ih (i0 + 1)

/-- C5: the final assembler returns an assembly-failure error on zero
combined segments; promotes a single combined clip to the final output by
a pure file copy, with no concatenation; concatenates several combined
clips in list order (the combine loop emits them in ascending segment
order). -/
theorem c5_assembler_degenerate_cases :
    (∀ concatOk : Bool, assembleFinal concatOk [] =
      MergeResult.error "No segments were successfully combined.") ∧
    (∀ (concatOk : Bool) (single : String), assembleFinal concatOk [single] =
      MergeResult.success final_output 1 (AssembleMode.copySingle single)) ∧
    (∀ combined : List String, 2 ≤ combined.length →
      assembleFinal true combined =
        MergeResult.success final_output combined.length (AssembleMode.concatList combined)) ∧
    (∀ (outcome : Nat → CombineOutcome) (i0 : Nat) (pairs : List (String × String)),
      List.Pairwise (· < ·) (combineIndices outcome i0 pairs)) := by
  refine ⟨fun _ => rfl, fun _ _ => rfl, ?_, fun outcome i0 pairs =>
    combineIndices_sorted outcome pairs i0⟩
  intro combined hlen
  match combined with
  | [] => simp at hlen
  | [a] => simp at hlen
  | a :: b :: t => simp [assembleFinal]

theorem c5_witness :
    assembleFinal true ([] : List String) =
      MergeResult.error "No segments were successfully combined." ∧
    assembleFinal true ["generated_media/combined_segments/combined_segment_1.mp4"] =
      MergeResult.success final_output 1
        (AssembleMode.copySingle "generated_media/combined_segments/combined_segment_1.mp4") ∧
    assembleFinal true ["a.mp4", "b.mp4"] =
      MergeResult.success final_output 2 (AssembleMode.concatList ["a.mp4", "b.mp4"]) :=
  ⟨c5_assembler_degenerate_cases.1 true,
   c5_assembler_degenerate_cases.2.1 true _,
   c5_assembler_degenerate_cases.2.2.1 ["a.mp4", "b.mp4"] (by decide)⟩

lemma merge_final_video_reduce (ex : String → Bool) (outcome : Nat → CombineOutcome)
    (concatOk : Bool) (videos audios : List String)
    (hlen : (validSegments ex videos).length = (validSegments ex audios).length)
    (hne : validSegments ex videos ≠ []) :
    merge_final_video ex outcome concatOk (MediaData.success videos audios) =
      ((combineIndices outcome 0
          ((validSegments ex videos).zip (validSegments ex audios))).map combinedSegmentPath,
        assembleFinal concatOk
          ((combineIndices outcome 0
            ((validSegments ex videos).zip (validSegments ex audios))).map combinedSegmentPath)) := by
  have h1 : (validSegments ex videos).isEmpty = false := by
    cases h : validSegments ex videos with
    | nil => exact absurd h hne
    | cons a t => rfl
  simp only [merge_final_video, h1, Bool.false_and, Bool.false_eq_true, if_false]
  rw [if_neg (not_not_intro hlen)]

/-- C10: `merge_final_video` filters the reported lists down to entries
that exist on disk, returns a mismatch error with no combining or assembly
whenever the valid counts differ, and pairs valid segments positionally
(by `zip`) when the counts are equal. -/
theorem c10_count_mismatch_guard (ex : String → Bool) (outcome : Nat → CombineOutcome)
    (concatOk : Bool) (videos audios : List String) :
    (∀ s ∈ validSegments ex videos, ex s = true) ∧
    (∀ s ∈ validSegments ex audios, ex s = true) ∧
    ((validSegments ex videos).length ≠ (validSegments ex audios).length →
      merge_final_video ex outcome concatOk (MediaData.success videos audios) =
        ([], MergeResult.error ("Mismatch between valid video ("
          ++ toString (validSegments ex videos).length ++ ") and audio ("
          ++ toString (validSegments ex audios).length ++ ") segments."))) ∧
    ((validSegments ex videos).length = (validSegments ex audios).length →
      validSegments ex videos ≠ [] →
      (merge_final_video ex outcome concatOk (MediaData.success videos audios)).1 =
        (combineIndices outcome 0
          ((validSegments ex videos).zip (validSegments ex audios))).map combinedSegmentPath) := by
  refine ⟨?_, ?_, ?_, ?_⟩
  · intro s hs
    have h := (List.mem_filter.mp hs).2
    simp only [Bool.and_eq_true] at h
    exact h.2
  · intro s hs
    have h := (List.mem_filter.mp hs).2
    simp only [Bool.and_eq_true] at h
    exact h.2
  · intro hne_len
    have h1 : ((validSegments ex videos).isEmpty && (validSegments ex audios).isEmpty) = false := by
      cases hv : validSegments ex videos with
      | nil =>
        cases ha : validSegments ex audios with
        | nil =>
          rw [hv, ha] at hne_len
          exact absurd rfl hne_len
        | cons b t => simp
      | cons a t => simp
    simp only [merge_final_video, h1, Bool.false_eq_true, if_false]
    rw [if_pos hne_len]
  · intro hlen hne
    rw [merge_final_video_reduce ex outcome concatOk videos audios hlen hne]

theorem c10_witness :
    (validSegments (fun s => s ≠ "missing.mp4") ["v1.mp4", "missing.mp4"]).length ≠
      (validSegments (fun s => s ≠ "missing.mp4") ["a1.wav", "a2.wav"]).length ∧
    merge_final_video (fun s => s ≠ "missing.mp4") (fun _ => CombineOutcome.success) true
        (MediaData.success ["v1.mp4", "missing.mp4"] ["a1.wav", "a2.wav"]) =
      ([], MergeResult.error "Mismatch between valid video (1) and audio (2) segments.") := by
  refine ⟨by decide, ?_⟩
  have h := (c10_count_mismatch_guard (fun s => s ≠ "missing.mp4")
    (fun _ => CombineOutcome.success) true
    ["v1.mp4", "missing.mp4"] ["a1.wav", "a2.wav"]).2.2.1 (by decide)
  exact h.trans (by decide)

lemma assembleFinal_eq_noCombined_iff (concatOk : Bool) (combined : List String) :
    assembleFinal concatOk combined =
      MergeResult.error "No segments were successfully combined." ↔ combined = [] := by
  constructor
  · intro h
    cases combined with
    | nil => rfl
    | cons a t =>
      cases t with
      | nil => exact absurd h (by simp [assembleFinal])
      | cons b t2 =>
        cases concatOk with
        | true => simp [assembleFinal] at h
        | false =>
          simp only [assembleFinal, Bool.false_eq_true, if_false] at h
          injection h with hmsg
          exact absurd hmsg (by decide)
  · rintro rfl
    rfl

/-- C8: a combine failure for one segment is segment-local: the set of
combined pair indices is exactly the successful ones (a failed pair is
skipped while every other pair still combines), assembly proceeds from
whatever clips did combine, and the combine stage produces the
"No segments were successfully combined." error precisely when no pair
succeeded. -/
theorem c8_combine_failure_segment_local (ex : String → Bool)
    (outcome : Nat → CombineOutcome) (concatOk : Bool) (videos audios : List String)
    (hlen : (validSegments ex videos).length = (validSegments ex audios).length)
    (hne : validSegments ex videos ≠ []) :
    (∀ j : Nat,
      j ∈ combineIndices outcome 0 ((validSegments ex videos).zip (validSegments ex audios)) ↔
        (j < ((validSegments ex videos).zip (validSegments ex audios)).length ∧
          outcome j = CombineOutcome.success)) ∧
    ((merge_final_video ex outcome concatOk (MediaData.success videos audios)).1 =
      (combineIndices outcome 0 ((validSegments ex videos).zip (validSegments ex audios))).map
        combinedSegmentPath) ∧
    ((merge_final_video ex outcome concatOk (MediaData.success videos audios)).2 =
      assembleFinal concatOk
        ((combineIndices outcome 0 ((validSegments ex videos).zip
          (validSegments ex audios))).map combinedSegmentPath)) ∧
    ((merge_final_video ex outcome concatOk (MediaData.success videos audios)).2 =
        MergeResult.error "No segments were successfully combined." ↔
      ∀ j, j < ((validSegments ex videos).zip (validSegments ex audios)).length →
        outcome j ≠ CombineOutcome.success) := by
  have hred := merge_final_video_reduce ex outcome concatOk videos audios hlen hne
  refine ⟨?_, by rw [hred], by rw [hred], ?_⟩
  · intro j
    constructor
    · intro h
      have h2 := (combineIndices_mem_iff outcome _ 0 j).mp h
      exact ⟨by omega, h2.2.2⟩
    · rintro ⟨hj, hs⟩
      exact (combineIndices_mem_iff outcome _ 0 j).mpr ⟨Nat.zero_le j, by omega, hs⟩
  · rw [hred]
    rw [assembleFinal_eq_noCombined_iff]
    rw [List.map_eq_nil_iff]
    rw [List.eq_nil_iff_forall_not_mem]
    constructor
    · intro h j hj hs
      exact h j ((combineIndices_mem_iff outcome _ 0 j).mpr ⟨Nat.zero_le j, by omega, hs⟩)
    · intro h j hj
      have h2 := (combineIndices_mem_iff outcome _ 0 j).mp hj
      exact h j (by omega) h2.2.2

theorem c8_witness :
    (validSegments (fun _ => true) ["v1.mp4", "v2.mp4"]).length =
      (validSegments (fun _ => true) ["a1.wav", "a2.wav"]).length ∧
    (1 ∈ combineIndices (fun j => if j = 0 then CombineOutcome.ffmpegFailed
        else CombineOutcome.success) 0
      ((validSegments (fun _ => true) ["v1.mp4", "v2.mp4"]).zip
        (validSegments (fun _ => true) ["a1.wav", "a2.wav"]))) ∧
    (0 ∉ combineIndices (fun j => if j = 0 then CombineOutcome.ffmpegFailed
        else CombineOutcome.success) 0
      ((validSegments (fun _ => true) ["v1.mp4", "v2.mp4"]).zip
        (validSegments (fun _ => true) ["a1.wav", "a2.wav"]))) ∧
    (merge_final_video (fun _ => true)
        (fun j => if j = 0 then CombineOutcome.ffmpegFailed else CombineOutcome.success) true
        (MediaData.success ["v1.mp4", "v2.mp4"] ["a1.wav", "a2.wav"])).2 ≠
      MergeResult.error "No segments were successfully combined." := by
  have h := c8_combine_failure_segment_local (fun _ => true)
    (fun j => if j = 0 then CombineOutcome.ffmpegFailed else CombineOutcome.success) true
    ["v1.mp4", "v2.mp4"] ["a1.wav", "a2.wav"] (by decide) (by decide)
  refine ⟨by decide, (h.1 1).mpr ⟨by decide, by decide⟩, ?_, ?_⟩
  · intro hmem
    exact absurd ((h.1 0).mp hmem).2 (by decide)
  · intro heq
    have h2 := (h.2.2.2.mp heq) 1 (by decide)
    exact h2 (by decide)

lemma genResultAux_error_of_fail :
    ∀ (segs : List SegmentEnv) (i : Nat) (i0 : Nat) (ref : Ref),
      i < segs.length →
      (∀ j, j < i → (segs.getD j default).audioOk = true ∧
        (segs.getD j default).videoOk = true) →
      ((segs.getD i default).audioOk = false ∨ (segs.getD i default).videoOk = false) →
      ∃ m, genResultAux segs i0 ref = Except.error m := by
  intro segs
  induction segs with
  | nil =>
    intro i i0 ref hi
    simp at hi
  | cons e rest ih =>
    intro i i0 ref hi hpre hfail
    cases i with
    | zero =>
      simp only [List.getD_cons_zero] at hfail
      cases ha : e.audioOk with
      | false =>
        exact ⟨"❌ Audio generation failed for segment " ++ toString (i0 + 1),
          by simp [genResultAux, ha]⟩
      | true =>
        have hv : e.videoOk = false := by
          rcases hfail with h | h
          · rw [ha] at h
            exact absurd h (by simp)
          · exact h
        exact ⟨"❌ Video generation failed for segment " ++ toString (i0 + 1),
          by simp [genResultAux, ha, hv]⟩
    | succ j =>
      have he := hpre 0 (Nat.succ_pos _)
      simp only [List.getD_cons_zero] at he
      obtain ⟨m, hm⟩ := ih j (i0 + 1) (nextRefAfter i0 rest.isEmpty e.extractOk ref)
        (by simp only [List.length_cons] at hi; omega)
        (fun k hk => by
          have h := hpre (k + 1) (Nat.succ_lt_succ hk)
          simpa using h)
        (by simpa using hfail)
      exact ⟨m, by simp [genResultAux, he.1, he.2, hm]⟩

/-- C1 counterexample: in a two-segment run where segment 0 generates
fully and segment 1's video generation fails fatally, the generation stage
returns an error payload and `merge_final_video` passes it through
unchanged — no combined segments are produced and no final artifact is
assembled, contrary to the claim that assembly still proceeds from the
prior segments. -/
theorem c1_counterexample :
    generate_video_and_audio_segments [⟨true, true, true⟩, ⟨true, false, true⟩] =
      MediaData.error "❌ Video generation failed for segment 2" ∧
    merge_final_video (fun _ => true) (fun _ => CombineOutcome.success) true
        (generate_video_and_audio_segments [⟨true, true, true⟩, ⟨true, false, true⟩]) =
      ([], MergeResult.error "❌ Video generation failed for segment 2") := by
  constructor <;> rfl

/-- C1 amended: when segment i's generation fails fatally after segments
0..i-1 generated successfully, the whole run returns an error: the
generation stage yields an error payload, `merge_final_video` returns it
unchanged, performs no combining (empty combined list) and produces no
final artifact — combining happens only after every segment has
generated. -/
theorem c1_generation_failure_aborts_run (segs : List SegmentEnv) (i : Nat)
    (hi : i < segs.length)
    (hpre : ∀ j, j < i → (segs.getD j default).audioOk = true ∧
      (segs.getD j default).videoOk = true)
    (hfail : (segs.getD i default).audioOk = false ∨ (segs.getD i default).videoOk = false) :
    ∃ m, generate_video_and_audio_segments segs = MediaData.error m ∧
      ∀ (ex : String → Bool) (outcome : Nat → CombineOutcome) (concatOk : Bool),
        merge_final_video ex outcome concatOk (generate_video_and_audio_segments segs) =
          ([], MergeResult.error m) := by
  obtain ⟨m, hm⟩ := genResultAux_error_of_fail segs i 0 Ref.initialImage hi hpre hfail
  have hgen : generate_video_and_audio_segments segs = MediaData.error m := by
    simp [generate_video_and_audio_segments, hm]
  exact ⟨m, hgen, fun ex outcome concatOk => by rw [hgen]; rfl⟩

theorem c1_witness :
    merge_final_video (fun _ => true) (fun _ => CombineOutcome.success) true
        (generate_video_and_audio_segments [⟨true, false, true⟩]) =
      ([], MergeResult.error "❌ Video generation failed for segment 1") := by
  obtain ⟨m, hm, hmerge⟩ := c1_generation_failure_aborts_run [⟨true, false, true⟩] 0
    (by decide) (fun j hj => absurd hj (Nat.not_lt_zero j)) (Or.inr rfl)
  have hgen : generate_video_and_audio_segments [⟨true, false, true⟩] =
      MediaData.error "❌ Video generation failed for segment 1" := rfl
  rw [hgen] at hm
  injection hm with hmsg
  subst hmsg
  exact hmerge (fun _ => true) (fun _ => CombineOutcome.success) true

end NeoMentor
